import Mathlib

/-!
Verification of the coordinate-resolution-and-marking engine of FileRenamerX.

The definitions below are a shallow embedding of the Python source:
  * `src/app_gui.py`, `update_status_excel` (legend extraction, filename
    parsing, grid / riser resolution and cell marking);
  * `src/inspect_status.py` (the standalone script version of the same);
  * `src/excel_processor.py`, `update_location_sheet` (the defect-location
    resolver and index-accumulating marker).

Strings are modelled as `List Char`; spreadsheet cells as a record of value,
fill (the ARGB hex string openpyxl stores), font and alignment; sheets as
functions from (row, column) to cell contents.  Machine integers are `Nat`
or `Int` exactly where Python's arithmetic can go negative.
-/

namespace FileRenamerX

/-! ### Character classes and small string utilities (Python semantics) -/

/-- `str.isdigit` / regex `\d` for the ASCII digits used by the program. -/
def isDigitC (c : Char) : Bool := '0' ≤ c && c ≤ '9'

/-- Regex `\s` / `str.strip` whitespace (the ASCII whitespace characters;
the Korean characters appearing in the data are never whitespace). -/
def isWS (c : Char) : Bool :=
  c = ' ' || c = '\t' || c = '\n' || c = '\r' || c = '\x0b' || c = '\x0c'

/-- `int(s)` on a string of decimal digits. -/
def digitsToNat (l : List Char) : Nat :=
  l.foldl (fun n c => 10 * n + (c.toNat - '0'.toNat)) 0

/-- Python `str.strip()`: drop whitespace from both ends. -/
def pyStrip (l : List Char) : List Char :=
  ((l.dropWhile isWS).reverse.dropWhile isWS).reverse

/-- Python `needle in hay` substring test. -/
def containsSub (needle hay : List Char) : Bool :=
  hay.tails.any (fun t => needle.isPrefixOf t)

/-- The character of a decimal digit. -/
def digitChar (n : Nat) : Char :=
  match n with
  | 0 => '0' | 1 => '1' | 2 => '2' | 3 => '3' | 4 => '4'
  | 5 => '5' | 6 => '6' | 7 => '7' | 8 => '8' | _ => '9'

/-- Fuelled helper for `natRepr` (the fuel keeps the recursion structural,
so that terms evaluate inside the kernel). -/
def natReprAux : Nat → Nat → List Char
  | 0, _ => []
  | fuel + 1, n =>
    if n < 10 then [digitChar n]
    else natReprAux fuel (n / 10) ++ [digitChar (n % 10)]

/-- `str(number)` for a natural number (decimal representation). -/
def natRepr (n : Nat) : List Char := natReprAux (n + 1) n

/-- Leftmost match of regex `\d+` (`re.search(r'\d+', s)`): the first maximal
digit run, if any. -/
def firstDigitRun : List Char → Option (List Char)
  | [] => none
  | c :: t => if isDigitC c then some (c :: t.takeWhile isDigitC) else firstDigitRun t

/-! ### Cell model

openpyxl normalises a 6-digit fill colour to an 8-digit ARGB string by
prepending the `00` alpha, so `PatternFill(start_color='ADD8E6')` is stored
as `00ADD8E6`; the embedding records the stored form. -/

/-- `blue_fill` (`ADD8E6`, sky blue) as the stored ARGB string. -/
def blueArgb : List Char := "00ADD8E6".toList

/-- `yellow_fill` (`FFFF00`) as the stored ARGB string. -/
def yellowArgb : List Char := "00FFFF00".toList

/-- `black_font = Font(color='000000', size=10)`. -/
def blackFont10 : List Char × Nat := ("000000".toList, 10)

/-- One spreadsheet cell: value, fill ARGB, font (colour, size), and whether
centre alignment has been applied. -/
structure Cell where
  value : Option (List Char)
  fillRgb : Option (List Char)
  font : Option (List Char × Nat)
  align : Option Bool
deriving DecidableEq, Repr

/-- A cell that has never been written. -/
def blankCell : Cell := ⟨none, none, none, none⟩

/-! ### Grid marking (`app_gui.update_status_excel`, non-riser branch)

`pipe_str = "/".join(sorted(pipes, key=lambda x: int(x)))`, then the cell is
written `완료`/blue when `pipe_str` equals the reference cell's value and
`pipe_str`/yellow otherwise; an empty inspected set only clears the value. -/

/-- `sorted(pipes, key=lambda x: int(x))`: sort the position-number strings
by their integer value. -/
def sortByInt (pipes : List (List Char)) : List (List Char) :=
  pipes.insertionSort (fun a b => digitsToNat a ≤ digitsToNat b)

/-- `"/".join(...)`. -/
def joinSlash (parts : List (List Char)) : List Char :=
  List.intercalate ['/'] parts

/-- The position string written into a grid cell. -/
def pipeStr (pipes : List (List Char)) : List Char :=
  joinSlash (sortByInt pipes)

/-- The grid cell marker (`app_gui.py` lines 1876–1913): with a non-empty
inspected set, write `완료`/blue if the joined position string equals the
reference value, else the partial string/yellow, setting the black font;
with an empty set, clear the value and touch nothing else. -/
def markGridCell (pipes : List (List Char)) (refVal : Option (List Char)) (c : Cell) : Cell :=
  if pipes ≠ [] then
    if refVal = some (pipeStr pipes) then
      { c with value := some "완료".toList, fillRgb := some blueArgb, font := some blackFont10 }
    else
      { c with value := some (pipeStr pipes), fillRgb := some yellowArgb, font := some blackFont10 }
  else
    { c with value := none }

/-! ### Grid coordinate resolution (`app_gui.update_status_excel`) -/

/-- The static per-building geometry table `building_info`
(`app_gui.py` lines 1813–1819): start column letter and line count. -/
def building_info : Nat → Option (List Char × Nat)
  | 101 => some ("A".toList, 4)
  | 102 => some ("H".toList, 4)
  | 103 => some ("O".toList, 5)
  | 104 => some ("W".toList, 6)
  | 105 => some ("AF".toList, 4)
  | 106 => some ("AM".toList, 4)
  | 107 => some ("AT".toList, 4)
  | 108 => some ("BA".toList, 4)
  | 109 => some ("BH".toList, 4)
  | 110 => some ("BO".toList, 4)
  | _ => none

/-- `openpyxl.utils.column_index_from_string`: base-26 letter index, A = 1. -/
def column_index_from_string (l : List Char) : Nat :=
  l.foldl (fun n c => 26 * n + (c.toNat - 'A'.toNat + 1)) 0

/-- Floor/line split of a unit string (`app_gui.py` lines 1837–1842):
three or more digits split before the last two; otherwise the first digit is
the floor and the rest the line (`int('')` raises for a 1-digit unit, which
the surrounding `except` turns into a skip, hence `none`). -/
def floorLine (u : List Char) : Option (Nat × Nat) :=
  if u.length ≥ 3 then
    some (digitsToNat (u.take (u.length - 2)), digitsToNat (u.drop (u.length - 2)))
  else
    match u with
    | [] => none
    | [_] => none
    | c :: rest => some (digitsToNat [c], digitsToNat rest)

/-- Grid target: `row = 41 - floor`, `column = start column index + line`.
The row is an `Int` because Python's subtraction can go negative. -/
def resolveGridTarget (building : Nat) (unit : List Char) : Option (Int × Nat) :=
  match building_info building with
  | none => none
  | some (sc, _lines) =>
    match floorLine unit with
    | none => none
    | some (floor, line) =>
      some ((41 : Int) - floor, column_index_from_string sc + line)

/-- A grid status sheet: extent plus cell contents. -/
structure GridSheet where
  maxRow : Nat
  maxCol : Nat
  cells : Nat → Nat → Cell

/-- One (building, unit) grid update (`app_gui.py` lines 1830–1913): resolve
the target, bounds-check it against the sheet, read the reference cell at
`(max_row - 1, target column)` and mark.  Returns the target address and the
newly written cell, or `none` when the record is skipped with a report. -/
def processUnit (sheet : GridSheet) (building : Nat) (unit : List Char)
    (pipes : List (List Char)) : Option (Nat × Nat × Cell) :=
  match building_info building with
  | none => none
  | some (sc, _lines) =>
    match floorLine unit with
    | none => none
    | some (floor, line) =>
      let row : Int := (41 : Int) - floor
      let col : Nat := column_index_from_string sc + line
      if row < 1 ∨ row > sheet.maxRow then none
      else if col < 1 ∨ col > sheet.maxCol then none
      else if sheet.maxRow ≤ 1 then none
      else
        let refVal := (sheet.cells (sheet.maxRow - 1) col).value
        some (row.toNat, col, markGridCell pipes refVal (sheet.cells row.toNat col))

/-! ### Filename parsing

`re.match(r"(\d+)동\s*(\d+)호\s*(.+?)\s*(\S+)\.mp4", fname)`
(`app_gui.py` lines 1491 and 1749).  The embedding follows the regex
engine's backtracking order: `(\d+)` is greedy (followed by a literal
non-digit, so effectively deterministic), the `\s*` before `(.+?)` retreats
from its maximal match when the rest fails, `(.+?)` grows from one
character, the `\s*` before `(\S+)` can only take its maximal match (a
shorter match would leave `\S+` starting on whitespace), and `(\S+)`
shrinks from its maximal match.  `re.match` anchors only at the start. -/

/-- Literal `.mp4` tail of the pattern. -/
def mp4Lit : List Char := ".mp4".toList

/-- `(\S+)\.mp4` after the maximal `\S+` run has been taken: `rns` is the
reversed run consumed so far, `u` the remainder; shrink the run until the
literal `.mp4` follows (the run must stay non-empty). -/
def kGo : List Char → List Char → Option (List Char)
  | [], _ => none
  | c :: rns, u =>
    if mp4Lit.isPrefixOf u then some ((c :: rns).reverse)
    else kGo rns (c :: u)

/-- `\s*(\S+)\.mp4` on `t`: the inner `\s*` must take its whole run. -/
def tryRest (t : List Char) : Option (List Char) :=
  let r := t.dropWhile isWS
  let ns := r.takeWhile (fun c => !isWS c)
  kGo ns.reverse (r.drop ns.length)

/-- `(.+?)\s*(\S+)\.mp4`: grow the non-greedy group from `acc` (already
non-empty) over `t` until the rest matches. -/
def subGo (acc : List Char) : List Char → Option (List Char × List Char)
  | [] =>
    (match tryRest [] with
     | some g4 => some (acc, g4)
     | none => none)
  | c :: t' =>
    (match tryRest (c :: t') with
     | some g4 => some (acc, g4)
     | none => subGo (acc ++ [c]) t')

/-- `(.+?)\s*(\S+)\.mp4` with the first group non-empty. -/
def sub2 : List Char → Option (List Char × List Char)
  | [] => none
  | c :: t => subGo [c] t

/-- `\s*(.+?)\s*(\S+)\.mp4`: the leading `\s*` starts maximal and retreats
one character at a time while the rest of the pattern fails. -/
def go3 : List Char → List Char → Option (List Char × List Char)
  | [], r => sub2 r
  | c :: ws', r =>
    (match sub2 r with
     | some res => some res
     | none => go3 ws' (c :: r))

/-- Entry point for the tail `\s*(.+?)\s*(\S+)\.mp4`. -/
def matchTail3 (t : List Char) : Option (List Char × List Char) :=
  go3 (t.takeWhile isWS).reverse (t.dropWhile isWS)

/-- `pipe_name.split('(')[0].strip()` applied only when the name contains a
parenthesis (`app_gui.py` lines 1509–1511, 1767–1768). -/
def stripParen (n : List Char) : List Char :=
  if '(' ∈ n then pyStrip (n.takeWhile (fun c => c ≠ '(')) else n

/-- The whole filename parse: building (as `int(...)`), unit string, pipe
category, pipe name after parenthesis stripping.  The greedy `(\d+)` runs
are deterministic because they are each followed by a literal non-digit. -/
def parseGridName (s : List Char) : Option (Nat × List Char × List Char × List Char) :=
  let b := s.takeWhile isDigitC
  if b = [] then none
  else
    match s.dropWhile isDigitC with
    | [] => none
    | c1 :: r2 =>
      if c1 = '동' then
        let r3 := r2.dropWhile isWS
        let u := r3.takeWhile isDigitC
        if u = [] then none
        else
          match r3.dropWhile isDigitC with
          | [] => none
          | c2 :: r5 =>
            if c2 = '호' then
              match matchTail3 r5 with
              | some (cat, name) => some (digitsToNat b, u, cat, stripParen name)
              | none => none
            else none
      else none

/-- A grid-format filename assembled from its four components. -/
def mkGridFilename (b u cat nm : List Char) : List Char :=
  b ++ "동 ".toList ++ u ++ "호 ".toList ++ cat ++ " ".toList ++ nm ++ ".mp4".toList

/-! ### Legend extraction (`app_gui.py` lines 1422–1429)

Within a resolved category span, row 8 is scanned left to right and each
non-empty cell receives the next sequential number, stored as a string in a
dict keyed by the cell value. -/

/-- Python dict assignment `d[k] = v`: overwrite in place or append. -/
def dictInsert (k v : List Char) (d : List (List Char × List Char)) :
    List (List Char × List Char) :=
  if d.any (fun p => p.1 = k) then
    d.map (fun p => if p.1 = k then (k, v) else p)
  else d ++ [(k, v)]

/-- Dict lookup `d[k]`. -/
def dictLookup (d : List (List Char × List Char)) (k : List Char) :
    Option (List Char) :=
  (d.find? (fun p => p.1 = k)).map (fun p => p.2)

/-- The scan loop: `number` is the next position to hand out. -/
def legendGo (number : Nat) (acc : List (List Char × List Char)) :
    List (Option (List Char)) → List (List Char × List Char)
  | [] => acc
  | none :: t => legendGo number acc t
  | some v :: t => legendGo (number + 1) (dictInsert v (natRepr number) acc) t

/-- `legend = {}` then the row-8 scan over the span's cells. -/
def buildLegend (cells : List (Option (List Char))) : List (List Char × List Char) :=
  legendGo 1 [] cells

/-! ### Riser row scan (`app_gui.py` lines 1604–1628)

A building cell is stripped, the `1동`/`1` variants are forced to
building 101, otherwise the first digit run is the building number. -/

/-- Canonical building number of a (already stripped) building cell text. -/
def canonBuilding (s : List Char) : Option Nat :=
  if s = "1동".toList ∨ s = "1".toList ∨ containsSub "1동".toList s then some 101
  else
    match firstDigitRun s with
    | some d => some (digitsToNat d)
    | none => none

/-- Building number extracted from a raw riser-row building cell:
`building_str = str(building_val).strip()` then the special-casing. -/
def riserRowBuilding (v : List Char) : Option Nat :=
  canonBuilding (pyStrip v)

/-! ### Defect-location resolver (`excel_processor.update_location_sheet`)

The sheet model carries the title (the riser special-casing tests
`"입상관" in sheet.title`), the used range, the cell values and fills, and
the merged ranges.  Mutations are returned as an explicit write list. -/

/-- A merged-cell range. -/
structure MRange where
  minRow : Nat
  minCol : Nat
  maxRow : Nat
  maxCol : Nat
deriving DecidableEq, Repr

/-- The defect-location sheet as read by `update_location_sheet`. -/
structure LocSheet where
  title : List Char
  maxRow : Nat
  maxCol : Nat
  cellVal : Nat → Nat → Option (List Char)
  cellFill : Nat → Nat → Option (List Char)
  merged : List MRange

/-- One cell mutation performed by `update_location_sheet`. -/
inductive WriteOp
  | setFill (row : Nat) (col : Nat) (rgb : List Char)
  | setValue (row : Nat) (col : Nat) (v : Option (List Char))
  | setFont (row : Nat) (col : Nat) (f : List Char × Nat)
  | setAlign (row : Nat) (col : Nat)
deriving DecidableEq, Repr

/-- `ho` split into floor and room number (`excel_processor.py` lines
404–419), applied to the digit-filtered `ho_number`. -/
def splitHo (h : List Char) : Nat × List Char :=
  if h.length ≥ 4 then (digitsToNat (h.take 2), h.drop 2)
  else if h.length = 3 then
    match h with
    | c0 :: c1 :: _ =>
      if c0 = '1' ∧ c1 ≠ '0' then (digitsToNat (h.take 2), h.drop 2)
      else (digitsToNat (h.take 1), h.drop 1)
    | _ => (1, h)
  else if h.length ≥ 2 then (digitsToNat (h.take 1), h.drop 1)
  else (1, h)

/-- Room-number column within the building block (`excel_processor.py`
lines 646–684): strip leading zeros, convert, offset from the block's first
column, clamp to the first/last column when out of range.  The `Bool` marks
the out-of-range warning having been reported; `none` mirrors the
`ValueError` branch that returns `None`. -/
def resolveRoomCol (room : List Char) (ds de : Nat) : Option (Nat × Bool) :=
  let clean := room.dropWhile (fun c => c = '0')
  let clean := if clean = [] then ['0'] else clean
  if ¬ clean.all isDigitC then none
  else
    let n := digitsToNat clean
    if 0 ≤ (n : Int) - 1 ∧ (n : Int) - 1 ≤ (de : Int) - (ds : Int) then
      some (ds + (n - 1), false)
    else if n = 0 then some (ds, true)
    else if (n : Int) > (de : Int) - (ds : Int) + 1 then some (de, true)
    else none

/-- Riser line column from the originating list-sheet `D` cell
(`excel_processor.py` lines 553–645): remove `호`, strip, keep the digits;
absence or no digits defaults to the block's first column, an out-of-range
line is clamped to the first/last column.  The `Bool` marks the
out-of-range report. -/
def resolveLineCol (dVal : Option (List Char)) (ds de : Nat) : Nat × Bool :=
  match dVal with
  | none => (ds, false)
  | some s =>
    let clean := pyStrip (s.filter (fun c => c ≠ '호'))
    let dNum := clean.filter isDigitC
    if dNum = [] then (ds, false)
    else
      let n := digitsToNat dNum
      if 0 ≤ (n : Int) - 1 ∧ (n : Int) - 1 ≤ (de : Int) - (ds : Int) then
        (ds + (n - 1), false)
      else if n = 0 then (ds, true)
      else (de, true)

/-- First row in `range(6, max_row + 1)` whose stripped value in `col` is
exactly `1층` (`excel_processor.py` lines 433–453). -/
def findFirstFloorIn (sheet : LocSheet) (col : Nat) : Option Nat :=
  (List.range' 6 (sheet.maxRow - 5)).find? (fun r =>
    match sheet.cellVal r col with
    | some v => pyStrip v = "1층".toList
    | none => false)

/-- The `1층` row: column A first, then column B. -/
def findFirstFloorRow (sheet : LocSheet) : Option Nat :=
  match findFirstFloorIn sheet 1 with
  | some r => some r
  | none => findFirstFloorIn sheet 2

/-- Building block in header row 8 (`excel_processor.py` lines 476–498):
first column from 2 on whose value contains the building digits, widened to
its merged range when one covers it. -/
def findDongBlock (sheet : LocSheet) (dongNum : List Char) : Option (Nat × Nat) :=
  match (List.range' 2 (sheet.maxCol - 1)).find? (fun c =>
      match sheet.cellVal 8 c with
      | some v => containsSub dongNum v
      | none => false) with
  | none => none
  | some c =>
    match sheet.merged.find? (fun m =>
        m.minRow ≤ 8 ∧ 8 ≤ m.maxRow ∧ m.minCol ≤ c ∧ c ≤ m.maxCol) with
    | some m => some (m.minCol, m.maxCol)
    | none => some (c, c)

/-- `re.search(r'(\d+)층', s)` guarded by `"층" in s`
(`excel_processor.py` lines 516–521): the leftmost digit run immediately
followed by `층`. -/
def findFloorNum : List Char → Option Nat
  | [] => none
  | c :: t =>
    if isDigitC c then
      match t.dropWhile isDigitC with
      | '층' :: _ => some (digitsToNat (c :: t.takeWhile isDigitC))
      | _ => findFloorNum t
    else findFloorNum t

/-- The floor label read from one scanned cell. -/
def floorLabelAt (sheet : LocSheet) (r c : Nat) : Option Nat :=
  match sheet.cellVal r c with
  | some v => if containsSub "층".toList v then findFloorNum v else none
  | none => none

/-- The cells scanned by the rooftop search: columns A and B of
`range(6, first_floor_row + 20)`. -/
def rooftopScanCells (ffr : Nat) : List (Nat × Nat) :=
  (List.range' 6 (ffr + 14)).flatMap (fun r => [(r, 1), (r, 2)])

/-- One step of the rooftop scan: keep the strictly-highest floor number
seen so far together with the row it was first seen on. -/
def scanStep (sheet : LocSheet) (acc : Nat × Nat) (rc : Nat × Nat) : Nat × Nat :=
  match floorLabelAt sheet rc.1 rc.2 with
  | some n => if n > acc.1 then (n, rc.1) else acc
  | none => acc

/-- Rooftop scan (`excel_processor.py` lines 509–527): track the highest
floor number and the row it was first seen on, starting from
`(1, first_floor_row)`. -/
def scanHighest (sheet : LocSheet) (ffr : Nat) : Nat × Nat :=
  (rooftopScanCells ffr).foldl (scanStep sheet) (1, ffr)

/-- The special-position row (`excel_processor.py` lines 506–534): the row
above the highest floor row for a rooftop location, the row below the
`1층` row otherwise (the basement case). -/
def specialFloorRow (sheet : LocSheet) (ho : List Char) (ffr : Nat) : Int :=
  if containsSub "옥상".toList ho then ((scanHighest sheet ffr).2 : Int) - 1
  else (ffr : Int) + 1

/-! ### Defect marking (`excel_processor.py` lines 694–775) -/

/-- Yellow-background detection on the stored ARGB string: an absent, empty
or `00000000` colour is not yellow, otherwise any colour containing
`FFFF00` is. -/
def isYellowRgb : Option (List Char) → Bool
  | none => false
  | some r =>
    if r = [] ∨ r = "00000000".toList then false
    else containsSub "FFFF00".toList r

/-- `str.split(',')`. -/
def splitComma : List Char → List (List Char)
  | [] => [[]]
  | c :: t =>
    if c = ',' then [] :: splitComma t
    else
      match splitComma t with
      | h :: r => (c :: h) :: r
      | [] => [[c]]

/-- The index-accumulating defect marker: turn the cell yellow; if it
already was yellow and non-empty, append the index to the comma-separated
list unless present; otherwise replace the content with the index.  Font
and centre alignment are reapplied unconditionally. -/
def markDefectCell (idx : List Char) (c : Cell) : Cell :=
  let isY := isYellowRgb c.fillRgb
  let v' :=
    if isY then
      match c.value with
      | some cur =>
        let parts := (splitComma cur).map pyStrip
        if idx ∈ parts then some cur else some (cur ++ ',' :: idx)
      | none => some idx
    else some idx
  { value := v', fillRgb := some yellowArgb, font := some blackFont10,
    align := some true }

/-- `update_location_sheet(sheet, dong, ho, index_no, ..., list_d)`:
returns the resolved `(row, column)` address (the code formats it as e.g.
`D29`) together with the cell writes performed, or `none` with no writes
when the record cannot be placed.  `dVal` is the originating list-sheet `D`
cell consulted by the riser special path. -/
def update_location_sheet (sheet : LocSheet) (dong ho idxNo : List Char)
    (dVal : Option (List Char)) : Option (Int × Nat) × List WriteOp :=
  let hoNum := ho.filter isDigitC
  let isRiser := containsSub "입상관".toList sheet.title
  let useSpecial := isRiser ∧ hoNum = []
  if hoNum = [] ∧ ¬ useSpecial then (none, [])
  else
    let dongNum := dong.filter isDigitC
    if dongNum = [] then (none, [])
    else
      match findFirstFloorRow sheet with
      | none => (none, [])
      | some ffr =>
        match findDongBlock sheet dongNum with
        | none => (none, [])
        | some (ds, de) =>
          let floorRow : Int :=
            if useSpecial then specialFloorRow sheet ho ffr
            else (ffr : Int) - (((splitHo hoNum).1 : Int) - 1)
          if floorRow < 6 ∨ floorRow > (sheet.maxRow : Int) then (none, [])
          else
            let roomColRes : Option (Nat × Bool) :=
              if useSpecial then some (resolveLineCol dVal ds de)
              else resolveRoomCol (splitHo hoNum).2 ds de
            match roomColRes with
            | none => (none, [])
            | some (rc, _) =>
              let r := floorRow.toNat
              let c0 : Cell :=
                { value := sheet.cellVal r rc, fillRgb := sheet.cellFill r rc,
                  font := none, align := none }
              let c1 := markDefectCell idxNo c0
              (some (floorRow, rc),
               [WriteOp.setFill r rc yellowArgb,
                WriteOp.setValue r rc c1.value,
                WriteOp.setFont r rc blackFont10,
                WriteOp.setAlign r rc])

/-! ### Supporting lemmas -/

theorem takeWhile_app (p : Char → Bool) (l r : List Char)
    (h : ∀ c ∈ l, p c = true) :
    (l ++ r).takeWhile p = l ++ r.takeWhile p := by
  induction l with
  | nil => simp
  | cons c t ih =>
    simp only [List.cons_append, List.takeWhile_cons, h c (by simp)]
    exact congrArg (c :: ·) (ih fun x hx => h x (by simp [hx]))

theorem dropWhile_app (p : Char → Bool) (l r : List Char)
    (h : ∀ c ∈ l, p c = true) :
    (l ++ r).dropWhile p = r.dropWhile p := by
  induction l with
  | nil => simp
  | cons c t ih =>
    simp only [List.cons_append, List.dropWhile_cons, h c (by simp)]
    exact ih fun x hx => h x (by simp [hx])

theorem takeWhile_all (p : Char → Bool) (l : List Char)
    (h : ∀ c ∈ l, p c = true) : l.takeWhile p = l := by
  have := takeWhile_app p l [] h
  simpa using this

theorem dropWhile_all (p : Char → Bool) (l : List Char)
    (h : ∀ c ∈ l, p c = true) : l.dropWhile p = [] := by
  have := dropWhile_app p l [] h
  simpa using this

theorem takeWhile_nil_of_head (p : Char → Bool) (c : Char) (l : List Char)
    (h : p c = false) : (c :: l).takeWhile p = [] := by
  simp [List.takeWhile_cons, h]

theorem dropWhile_id_of_head (p : Char → Bool) (c : Char) (l : List Char)
    (h : p c = false) : (c :: l).dropWhile p = c :: l := by
  simp [List.dropWhile_cons, h]

theorem dropWhile_eq_self_of (p : Char → Bool) (l : List Char)
    (h : ∀ c ∈ l, p c = false) : l.dropWhile p = l := by
  cases l with
  | nil => simp
  | cons c t => simp [List.dropWhile_cons, h c (by simp)]

theorem pyStrip_of_no_ws (l : List Char) (h : ∀ c ∈ l, isWS c = false) :
    pyStrip l = l := by
  unfold pyStrip
  rw [dropWhile_eq_self_of isWS l h,
    dropWhile_eq_self_of isWS l.reverse (fun c hc => h c (List.mem_reverse.1 hc)),
    List.reverse_reverse]

theorem splitComma_ne_nil (l : List Char) : splitComma l ≠ [] := by
  cases l with
  | nil => simp [splitComma]
  | cons c t =>
    unfold splitComma
    split
    · simp
    · split <;> simp_all

theorem splitComma_cons_comma (t : List Char) :
    splitComma (',' :: t) = [] :: splitComma t := by
  simp [splitComma]

theorem splitComma_cons_ne (c : Char) (t : List Char) (h : c ≠ ',') :
    splitComma (c :: t) =
      match splitComma t with
      | h :: r => (c :: h) :: r
      | [] => [[c]] := by
  simp [splitComma, h]

theorem splitComma_append (x y : List Char) :
    splitComma (x ++ ',' :: y) = splitComma x ++ splitComma y := by
  induction x with
  | nil => simp [splitComma]
  | cons c t ih =>
    by_cases hc : c = ','
    · subst hc
      rw [List.cons_append, splitComma_cons_comma, splitComma_cons_comma, ih,
        List.cons_append]
    · rw [List.cons_append, splitComma_cons_ne c _ hc, splitComma_cons_ne c _ hc, ih]
      have hne := splitComma_ne_nil t
      cases h : splitComma t with
      | nil => exact absurd h hne
      | cons h' r => simp

theorem splitComma_no_comma (l : List Char) (h : ∀ c ∈ l, c ≠ ',') :
    splitComma l = [l] := by
  induction l with
  | nil => simp [splitComma]
  | cons c t ih =>
    simp only [splitComma, if_neg (h c (by simp))]
    rw [ih fun x hx => h x (by simp [hx])]

/-! ### C2: grid position string and completion/discrepancy marking -/

instance : IsTotal (List Char) (fun a b => digitsToNat a ≤ digitsToNat b) :=
  ⟨fun _ _ => Nat.le_total _ _⟩

instance : IsTrans (List Char) (fun a b => digitsToNat a ≤ digitsToNat b) :=
  ⟨fun _ _ _ => Nat.le_trans⟩

/-- **C2.** For a non-empty inspected set the grid marker writes the
position numbers sorted as integers and joined by `/` (so `{"10","2"}`
joins as `2/10`); the cell receives `완료` with the blue fill exactly when
that string equals the reference value, and otherwise the partial string
with the yellow fill; an empty inspected set clears the value and leaves
the fill untouched. -/
theorem grid_mark_completion_spec (pipes : List (List Char))
    (refVal : Option (List Char)) (c : Cell) (hne : pipes ≠ []) :
    (refVal = some (pipeStr pipes) →
      markGridCell pipes refVal c =
        { c with value := some "완료".toList, fillRgb := some blueArgb,
                 font := some blackFont10 })
    ∧ (refVal ≠ some (pipeStr pipes) →
      markGridCell pipes refVal c =
        { c with value := some (pipeStr pipes), fillRgb := some yellowArgb,
                 font := some blackFont10 })
    ∧ List.Sorted (fun a b => digitsToNat a ≤ digitsToNat b) (sortByInt pipes)
    ∧ (sortByInt pipes).Perm pipes
    ∧ pipeStr ["10".toList, "2".toList] = "2/10".toList
    ∧ (∀ c', markGridCell [] refVal c' = { c' with value := none }) := by
  refine ⟨fun h => ?_, fun h => ?_, ?_, ?_, by decide, fun c' => ?_⟩
  · simp [markGridCell, hne, h]
  · simp [markGridCell, hne, h]
  · exact List.sorted_insertionSort _ pipes
  · exact List.perm_insertionSort _ pipes
  · simp [markGridCell]

/-- Witness for C2 at a concrete inspected set and reference value. -/
theorem grid_mark_completion_spec_witness :
    markGridCell ["10".toList, "2".toList] (some "2/10".toList) blankCell =
      { blankCell with value := some "완료".toList, fillRgb := some blueArgb, font := some blackFont10 } :=
  (grid_mark_completion_spec ["10".toList, "2".toList] (some "2/10".toList)
    blankCell (by decide)).1 (by decide)

/-! ### C3: idempotence of the grid and defect markers -/

theorem markDefect_value (idx : List Char) (c : Cell) :
    (markDefectCell idx c).value =
      if isYellowRgb c.fillRgb then
        match c.value with
        | some cur =>
          if idx ∈ (splitComma cur).map pyStrip then some cur
          else some (cur ++ ',' :: idx)
        | none => some idx
      else some idx := rfl

theorem markDefect_fill (idx : List Char) (c : Cell) :
    (markDefectCell idx c).fillRgb = some yellowArgb := rfl

theorem markDefect_font (idx : List Char) (c : Cell) :
    (markDefectCell idx c).font = some blackFont10 := rfl

theorem markDefect_align (idx : List Char) (c : Cell) :
    (markDefectCell idx c).align = some true := rfl

theorem cell_eq_of_fields (a b : Cell) (h1 : a.value = b.value)
    (h2 : a.fillRgb = b.fillRgb) (h3 : a.font = b.font)
    (h4 : a.align = b.align) : a = b := by
  cases a; cases b; simp_all

theorem isYellow_yellow : isYellowRgb (some yellowArgb) = true := by decide

theorem mem_parts_after_mark (idx : List Char) (c : Cell)
    (hstrip : pyStrip idx = idx) (hcomma : ∀ ch ∈ idx, ch ≠ ',') :
    ∃ v, (markDefectCell idx c).value = some v ∧
      idx ∈ (splitComma v).map pyStrip := by
  rw [markDefect_value]
  by_cases hY : isYellowRgb c.fillRgb
  · cases hval : c.value with
    | none =>
      refine ⟨idx, by simp [hY], ?_⟩
      rw [splitComma_no_comma idx hcomma]
      simp [hstrip]
    | some cur =>
      by_cases hmem : idx ∈ (splitComma cur).map pyStrip
      · exact ⟨cur, by simp [hY, hmem], hmem⟩
      · refine ⟨cur ++ ',' :: idx, by simp [hY, hmem], ?_⟩
        rw [splitComma_append, splitComma_no_comma idx hcomma]
        simp [hstrip]
  · refine ⟨idx, by simp [hY], ?_⟩
    rw [splitComma_no_comma idx hcomma]
    simp [hstrip]

/-- **C3.** Marking the same record twice equals marking it once: the grid
marker rewrites the identical value and fill, and the defect marker, on a
cell already yellow, appends the index only when it is not already in the
comma-separated list (the index written by the program is a clean decimal
token: no surrounding whitespace, no comma). -/
theorem marking_idempotent :
    (∀ pipes refVal c,
      markGridCell pipes refVal (markGridCell pipes refVal c) =
        markGridCell pipes refVal c)
    ∧ (∀ idx cur c, isYellowRgb c.fillRgb = true → c.value = some cur →
      (markDefectCell idx c).value =
        if idx ∈ (splitComma cur).map pyStrip then some cur
        else some (cur ++ ',' :: idx))
    ∧ (∀ idx c, pyStrip idx = idx → (∀ ch ∈ idx, ch ≠ ',') →
      markDefectCell idx (markDefectCell idx c) = markDefectCell idx c) := by
  refine ⟨fun pipes refVal c => ?_, fun idx cur c hY hv => ?_, fun idx c h1 h2 => ?_⟩
  · by_cases h : pipes = []
    · subst h; simp [markGridCell]
    · by_cases h2 : refVal = some (pipeStr pipes) <;> simp [markGridCell, h, h2]
  · rw [markDefect_value, hY, hv]
    simp
  · obtain ⟨v, hv, hmem⟩ := mem_parts_after_mark idx c h1 h2
    refine cell_eq_of_fields _ _ ?_ ?_ ?_ ?_
    · rw [markDefect_value, markDefect_fill, isYellow_yellow, hv]
      simp [hmem]
    · rw [markDefect_fill, markDefect_fill]
    · rw [markDefect_font, markDefect_font]
    · rw [markDefect_align, markDefect_align]

/-- Witness for C3: a concrete double marking. -/
theorem marking_idempotent_witness :
    markDefectCell "7".toList (markDefectCell "7".toList blankCell) =
      markDefectCell "7".toList blankCell :=
  marking_idempotent.2.2 "7".toList blankCell (by decide) (by decide)

/-! ### C1: the end-to-end grid scenario -/

/-- A status sheet that is blank apart from its extent. -/
def gridSheetBlank : GridSheet := ⟨40, 10, fun _ _ => blankCell⟩

/-- **C1, counterexample.**  In the claimed scenario (legend `급수 ↦ 1`,
building 101 with start column `A`, unit `1203`, pipe `급수`) the engine
does mark row `41 - 12 = 29` and column `1 + 3 = 4`, but when the reference
cell does not equal `"1"` the value `"1"` is written with the *yellow*
fill, not the blue fill the claim asserts. -/
theorem grid_scenario_counterexample :
    dictLookup (buildLegend [some "급수".toList, some "급탕".toList]) "급수".toList =
      some "1".toList
    ∧ processUnit gridSheetBlank 101 "1203".toList ["1".toList] =
      some (29, 4, { blankCell with value := some "1".toList, fillRgb := some yellowArgb, font := some blackFont10 })
    ∧ some yellowArgb ≠ (some blueArgb : Option (List Char)) := by
  refine ⟨by decide, ?_, by decide⟩
  decide

/-- **C1, amended.**  Same scenario: the legend sends `급수` to position
`"1"`, the resolver targets row `29` and column `4` (start column index of
`A` plus the line number `3` used directly as offset), and the engine
writes `완료` with the blue fill when the reference cell equals `"1"` and
otherwise the partial value `"1"` with the yellow fill. -/
theorem grid_scenario_amended (s : GridSheet) (hr : 29 ≤ s.maxRow)
    (hc : 4 ≤ s.maxCol) :
    dictLookup (buildLegend [some "급수".toList, some "급탕".toList]) "급수".toList =
      some "1".toList
    ∧ resolveGridTarget 101 "1203".toList = some (29, 4)
    ∧ processUnit s 101 "1203".toList ["1".toList] =
      some (29, 4, markGridCell ["1".toList]
        ((s.cells (s.maxRow - 1) 4).value) (s.cells 29 4))
    ∧ ((s.cells (s.maxRow - 1) 4).value = some "1".toList →
        (markGridCell ["1".toList] ((s.cells (s.maxRow - 1) 4).value)
          (s.cells 29 4)).value = some "완료".toList
        ∧ (markGridCell ["1".toList] ((s.cells (s.maxRow - 1) 4).value)
          (s.cells 29 4)).fillRgb = some blueArgb)
    ∧ ((s.cells (s.maxRow - 1) 4).value ≠ some "1".toList →
        (markGridCell ["1".toList] ((s.cells (s.maxRow - 1) 4).value)
          (s.cells 29 4)).value = some "1".toList
        ∧ (markGridCell ["1".toList] ((s.cells (s.maxRow - 1) 4).value)
          (s.cells 29 4)).fillRgb = some yellowArgb) := by
  have hfl : floorLine "1203".toList = some (12, 3) := by decide
  have hbi : building_info 101 = some ("A".toList, 4) := rfl
  have hps : pipeStr ["1".toList] = "1".toList := by decide
  refine ⟨by decide, by decide, ?_, fun h => ?_, fun h => ?_⟩
  · have h1 : ¬((41 : Int) - ((12 : Nat) : Int) < 1
        ∨ (41 : Int) - ((12 : Nat) : Int) > (s.maxRow : Int)) := by
      omega
    have h2 : ¬(column_index_from_string "A".toList + 3 < 1
        ∨ column_index_from_string "A".toList + 3 > s.maxCol) := by
      rw [show column_index_from_string "A".toList = 1 from by decide]
      omega
    have h3 : ¬(s.maxRow ≤ 1) := by omega
    simp only [processUnit, hbi, hfl, h1, h2, h3, if_false,
      show column_index_from_string "A".toList = 1 from by decide,
      show (((41 : Int) - ((12 : Nat) : Int)).toNat) = 29 from by decide]
    rw [if_neg (show ¬(1 + 3 < 1 ∨ 1 + 3 > s.maxCol) by omega)]
  · rw [markGridCell]
    rw [if_pos (by decide), if_pos (by rw [h, hps])]
    exact ⟨rfl, rfl⟩
  · rw [markGridCell]
    rw [if_pos (by decide), if_neg (by rw [hps]; exact h)]
    exact ⟨rfl, rfl⟩

/-- Witness for C1 (amended) on a sheet whose reference cell holds `1`. -/
def gridSheetRef1 : GridSheet :=
  ⟨40, 10, fun r c =>
    if r = 39 ∧ c = 4 then { blankCell with value := some "1".toList }
    else blankCell⟩

theorem grid_scenario_amended_witness :
    (gridSheetRef1.cells (gridSheetRef1.maxRow - 1) 4).value = some "1".toList
    ∧ processUnit gridSheetRef1 101 "1203".toList ["1".toList] =
      some (29, 4, markGridCell ["1".toList]
        ((gridSheetRef1.cells (gridSheetRef1.maxRow - 1) 4).value)
        (gridSheetRef1.cells 29 4)) := by
  refine ⟨by decide, ?_⟩
  exact (grid_scenario_amended gridSheetRef1 (by decide) (by decide)).2.2.1

/-! ### C4: location of the reference cell -/

/-- A sheet whose last data row is 31; the cell one row *above* the last
row (row 30) holds `9`, while the cell one row *below* the last data row
(row 32) holds `1`, the claimed signature location. -/
def gridSheetC4 : GridSheet :=
  ⟨31, 10, fun r c =>
    if r = 30 ∧ c = 4 then { blankCell with value := some "9".toList }
    else if r = 32 ∧ c = 4 then { blankCell with value := some "1".toList }
    else blankCell⟩

/-- **C4, counterexample.**  The grid resolver reads its reference
signature from `max_row - 1` — one row *above* the sheet's last data row —
not from the row below it: on `gridSheetC4` the cell one row below the
last data row holds exactly the computed position string `1`, yet the
engine writes the discrepancy mark `1`/yellow (comparing against row 30's
`9`) instead of the completion mark the claim would imply. -/
theorem reference_row_counterexample :
    (gridSheetC4.cells (gridSheetC4.maxRow + 1) 4).value = some "1".toList
    ∧ processUnit gridSheetC4 101 "1203".toList ["1".toList] =
      some (29, 4, { blankCell with value := some "1".toList, fillRgb := some yellowArgb, font := some blackFont10 })
    ∧ (some "1".toList : Option (List Char)) ≠ some "완료".toList := by
  refine ⟨by decide, by decide, by decide⟩

/-- **C4, amended.**  For every grid resolution that reaches the marking
step, the reference signature is taken from the cell one row *above* the
sheet's last data row (`max_row - 1`), at the resolved column. -/
theorem reference_row_amended (sheet : GridSheet) (b : Nat) (u : List Char)
    (pipes : List (List Char)) (row col : Nat) (c' : Cell)
    (h : processUnit sheet b u pipes = some (row, col, c')) :
    2 ≤ sheet.maxRow
    ∧ c' = markGridCell pipes ((sheet.cells (sheet.maxRow - 1) col).value)
        (sheet.cells row col) := by
  unfold processUnit at h
  rcases hbi : building_info b with _ | ⟨sc, lines⟩ <;> rw [hbi] at h
  · exact absurd h (by simp)
  · rcases hfl : floorLine u with _ | ⟨floor, line⟩ <;> rw [hfl] at h
    · exact absurd h (by simp)
    · simp only [] at h
      split at h
      · exact absurd h (by simp)
      · split at h
        · exact absurd h (by simp)
        · split at h
          · exact absurd h (by simp)
          · refine ⟨by omega, ?_⟩
            simp only [Option.some_inj, Prod.mk.injEq] at h
            obtain ⟨h1, h2, h3⟩ := h
            subst h1
            subst h2
            subst h3
            rfl

/-- Witness for C4 (amended) at a concrete resolved record. -/
theorem reference_row_amended_witness :
    2 ≤ gridSheetC4.maxRow
    ∧ { blankCell with value := some "1".toList, fillRgb := some yellowArgb, font := some blackFont10 } =
      markGridCell ["1".toList] ((gridSheetC4.cells (gridSheetC4.maxRow - 1) 4).value)
        (gridSheetC4.cells 29 4) :=
  reference_row_amended gridSheetC4 101 "1203".toList ["1".toList] 29 4
    { blankCell with value := some "1".toList, fillRgb := some yellowArgb, font := some blackFont10 }
    (by decide)

/-! ### C5: out-of-range line offset is clamped, not thrown -/

/-- **C5.**  In the defect-location resolver, a line offset read from the
originating list-sheet `D` cell that exceeds the building block's column
count resolves by clamping to the block's last column — a value is
returned (no exception path) — and the out-of-range case is reported. -/
theorem line_offset_clamped (s : List Char) (ds de : Nat) (hle : ds ≤ de)
    (hne : ((pyStrip (s.filter (fun c => c ≠ '호'))).filter isDigitC) ≠ [])
    (hgt : digitsToNat ((pyStrip (s.filter (fun c => c ≠ '호'))).filter isDigitC)
      > de - ds + 1) :
    resolveLineCol (some s) ds de = (de, true) := by
  unfold resolveLineCol
  simp only []
  rw [if_neg hne, if_neg (by omega), if_neg (by omega)]

/-- Witness for C5: line `9` against a three-column block. -/
theorem line_offset_clamped_witness :
    resolveLineCol (some "9호".toList) 2 4 = (4, true) :=
  line_offset_clamped "9호".toList 2 4 (by decide) (by decide) (by decide)

/-! ### C6: `1동` riser rows match building 101 filenames -/

/-- **C6.**  During the riser row scan a building cell whose stripped text
is the literal `1동` or `1` (or contains `1동`) is canonicalised to
building 101, which equals the building parsed from a filename carrying
building 101 (round trip between the sheet and filename encodings). -/
theorem riser_building_roundtrip :
    (∀ v, (pyStrip v = "1동".toList ∨ pyStrip v = "1".toList ∨
        containsSub "1동".toList (pyStrip v) = true) →
      riserRowBuilding v = some 101)
    ∧ (parseGridName "101동 303호 입상관 온수.mp4".toList).map (fun r => r.1) = some 101
    ∧ riserRowBuilding " 1동 ".toList =
        (parseGridName "101동 303호 입상관 온수.mp4".toList).map (fun r => r.1) := by
  refine ⟨fun v h => ?_, by decide, by decide⟩
  unfold riserRowBuilding canonBuilding
  rw [if_pos h]

/-- Witness for C6 at the literal cell text `1동`. -/
theorem riser_building_roundtrip_witness :
    riserRowBuilding "1동".toList = some 101 :=
  riser_building_roundtrip.1 "1동".toList (Or.inl (by decide))

/-! ### C7: the filename grammar is parsed exactly -/

theorem digit_not_ws (c : Char) (h : isDigitC c = true) : isWS c = false := by
  by_contra hws
  rw [Bool.not_eq_false] at hws
  unfold isWS at hws
  simp only [Bool.or_eq_true, decide_eq_true_eq] at hws
  rcases hws with ((((rfl | rfl) | rfl) | rfl) | rfl) | rfl <;>
    exact absurd h (by decide)

theorem kGo_none (rns : List Char) (hdot : ∀ c ∈ rns, c ≠ '.') :
    ∀ u, ¬ mp4Lit.isPrefixOf u = true → kGo rns u = none := by
  induction rns with
  | nil => intro u _; rfl
  | cons c t ih =>
    intro u hu
    have hc : c ≠ '.' := hdot c (by simp)
    rw [kGo, if_neg hu]
    refine ih (fun x hx => hdot x (by simp [hx])) (c :: u) ?_
    show ¬ ('.' :: "mp4".toList).isPrefixOf (c :: u) = true
    simp only [List.isPrefixOf, Bool.and_eq_true, beq_iff_eq]
    rintro ⟨rfl, -⟩
    exact hc rfl

theorem not_prefix_of_head_ne (c : Char) (u : List Char) (h : c ≠ '.') :
    ¬ mp4Lit.isPrefixOf (c :: u) = true := by
  show ¬ ('.' :: "mp4".toList).isPrefixOf (c :: u) = true
  simp only [List.isPrefixOf, Bool.and_eq_true, beq_iff_eq]
  rintro ⟨rfl, -⟩
  exact h rfl

theorem kGo_finds (nm : List Char) (hnm : nm ≠ []) :
    kGo (nm ++ mp4Lit).reverse [] = some nm := by
  obtain ⟨c, rest, hrev⟩ : ∃ c rest, nm.reverse = c :: rest := by
    cases h : nm.reverse with
    | nil => exact absurd (by simpa using congrArg List.reverse h) hnm
    | cons c rest => exact ⟨c, rest, rfl⟩
  rw [List.reverse_append, show mp4Lit.reverse = ['4', 'p', 'm', '.'] from rfl, hrev]
  show kGo ('4' :: 'p' :: 'm' :: '.' :: c :: rest) [] = some nm
  rw [kGo, if_neg (by decide), kGo, if_neg (by decide), kGo, if_neg (by decide),
    kGo, if_neg (by decide), kGo, if_pos (by decide)]
  rw [show (c :: rest) = nm.reverse from hrev.symm, List.reverse_reverse]

theorem tryRest_mid (c2 rest : List Char) (hc2 : c2 ≠ [])
    (hws : ∀ c ∈ c2, isWS c = false) (hdot : ∀ c ∈ c2, c ≠ '.') :
    tryRest (c2 ++ ' ' :: rest) = none := by
  obtain ⟨d, c2', rfl⟩ : ∃ d c2', c2 = d :: c2' := by
    cases c2 with
    | nil => exact absurd rfl hc2
    | cons d c2' => exact ⟨d, c2', rfl⟩
  unfold tryRest
  simp only []
  rw [List.cons_append, dropWhile_id_of_head isWS d _ (hws d (by simp)),
    ← List.cons_append,
    takeWhile_app (fun c => !isWS c) (d :: c2') (' ' :: rest)
      (fun c hc => by simp [hws c hc]),
    takeWhile_nil_of_head (fun c => !isWS c) ' ' rest (by decide),
    List.append_nil, List.drop_left]
  exact kGo_none (d :: c2').reverse
    (fun c hc => hdot c (List.mem_reverse.1 hc)) (' ' :: rest)
    (not_prefix_of_head_ne ' ' rest (by decide))

theorem tryRest_succ (nm : List Char) (hnm : nm ≠ [])
    (hws : ∀ c ∈ nm, isWS c = false) :
    tryRest (' ' :: (nm ++ mp4Lit)) = some nm := by
  obtain ⟨d, nm', rfl⟩ : ∃ d nm', nm = d :: nm' := by
    cases nm with
    | nil => exact absurd rfl hnm
    | cons d nm' => exact ⟨d, nm', rfl⟩
  have hall : ∀ c ∈ d :: (nm' ++ mp4Lit), (!isWS c) = true := by
    intro c hc
    rcases List.mem_cons.1 hc with rfl | hc'
    · simp [hws c (by simp)]
    · rcases List.mem_append.1 hc' with h | h
      · simp [hws c (by simp [h])]
      · fin_cases h <;> decide
  unfold tryRest
  simp only []
  rw [List.dropWhile_cons_of_pos (by decide), List.cons_append,
    dropWhile_id_of_head isWS d _ (hws d (by simp)),
    takeWhile_all _ _ hall, List.drop_length]
  exact kGo_finds (d :: nm') (by simp)

theorem subGo_cat (c2 nm : List Char)
    (hc2ws : ∀ c ∈ c2, isWS c = false) (hc2dot : ∀ c ∈ c2, c ≠ '.')
    (hnm : nm ≠ []) (hnmws : ∀ c ∈ nm, isWS c = false) :
    ∀ acc, subGo acc (c2 ++ ' ' :: (nm ++ mp4Lit)) = some (acc ++ c2, nm) := by
  induction c2 with
  | nil =>
    intro acc
    rw [List.nil_append, subGo, tryRest_succ nm hnm hnmws, List.append_nil]
  | cons d c2' ih =>
    intro acc
    rw [List.cons_append, subGo,
      show d :: (c2' ++ ' ' :: (nm ++ mp4Lit)) = (d :: c2') ++ ' ' :: (nm ++ mp4Lit)
        from rfl,
      tryRest_mid (d :: c2') (nm ++ mp4Lit) (by simp) hc2ws hc2dot,
      ih (fun c hc => hc2ws c (by simp [hc])) (fun c hc => hc2dot c (by simp [hc]))
        (acc ++ [d])]
    simp

theorem matchTail3_spec (cat nm : List Char) (hcat : cat ≠ [])
    (hcws : ∀ c ∈ cat, isWS c = false) (hcdot : ∀ c ∈ cat, c ≠ '.')
    (hnm : nm ≠ []) (hnws : ∀ c ∈ nm, isWS c = false) :
    matchTail3 (' ' :: (cat ++ ' ' :: (nm ++ mp4Lit))) = some (cat, nm) := by
  obtain ⟨d, cat', rfl⟩ : ∃ d cat', cat = d :: cat' := by
    cases cat with
    | nil => exact absurd rfl hcat
    | cons d cat' => exact ⟨d, cat', rfl⟩
  unfold matchTail3
  rw [List.takeWhile_cons_of_pos (by decide),
    List.dropWhile_cons_of_pos (by decide),
    List.cons_append,
    takeWhile_nil_of_head isWS d _ (hcws d (by simp)),
    dropWhile_id_of_head isWS d _ (hcws d (by simp))]
  show go3 [' '] (d :: (cat' ++ ' ' :: (nm ++ mp4Lit))) = some (d :: cat', nm)
  rw [go3]
  have h2 : sub2 (d :: (cat' ++ ' ' :: (nm ++ mp4Lit))) = some (d :: cat', nm) := by
    rw [sub2,
      subGo_cat cat' nm (fun c hc => hcws c (by simp [hc]))
        (fun c hc => hcdot c (by simp [hc])) hnm hnws [d]]
    simp
  rw [h2]

theorem mkGridFilename_eq (b u cat nm : List Char) :
    mkGridFilename b u cat nm =
      b ++ '동' :: ' ' :: (u ++ '호' :: ' ' :: (cat ++ ' ' :: (nm ++ mp4Lit))) := by
  simp only [mkGridFilename, List.append_assoc]
  rfl

/-- **C7.**  Every valid grid-format filename
`<building>동 <unit>호 <category> <name>.mp4` — digit runs for building and
unit, a category and a pipe name containing no whitespace, no dot and (for
the category) at least one character — parses back to exactly its
components, with a trailing parenthetical annotation stripped from the
pipe name; in particular `102동 1903호 세대매립관 세탁(재검사).mp4`
parses its pipe name as `세탁`. -/
theorem parse_grid_filename :
    (∀ b u cat nm : List Char,
      b ≠ [] → (∀ c ∈ b, isDigitC c = true) →
      u ≠ [] → (∀ c ∈ u, isDigitC c = true) →
      cat ≠ [] → (∀ c ∈ cat, isWS c = false) → (∀ c ∈ cat, c ≠ '.') →
      nm ≠ [] → (∀ c ∈ nm, isWS c = false) → (∀ c ∈ nm, c ≠ '.') →
      parseGridName (mkGridFilename b u cat nm)
        = some (digitsToNat b, u, cat, stripParen nm))
    ∧ parseGridName "102동 1903호 세대매립관 세탁(재검사).mp4".toList
        = some (102, "1903".toList, "세대매립관".toList, "세탁".toList) := by
  constructor
  · intro b u cat nm hb hbd hu hud hcat hcws hcdot hnm hnws hndot
    obtain ⟨du, u', rfl⟩ : ∃ du u', u = du :: u' := by
      cases u with
      | nil => exact absurd rfl hu
      | cons du u' => exact ⟨du, u', rfl⟩
    rw [mkGridFilename_eq]
    set X : List Char := '호' :: ' ' :: (cat ++ ' ' :: (nm ++ mp4Lit)) with hX
    have e1 : (b ++ '동' :: ' ' :: ((du :: u') ++ X)).takeWhile isDigitC = b := by
      rw [takeWhile_app isDigitC b _ hbd,
        takeWhile_nil_of_head isDigitC '동' _ (by decide), List.append_nil]
    have e2 : (b ++ '동' :: ' ' :: ((du :: u') ++ X)).dropWhile isDigitC
        = '동' :: ' ' :: ((du :: u') ++ X) := by
      rw [dropWhile_app isDigitC b _ hbd,
        dropWhile_id_of_head isDigitC '동' _ (by decide)]
    have e3 : (' ' :: ((du :: u') ++ X)).dropWhile isWS = (du :: u') ++ X := by
      rw [List.dropWhile_cons_of_pos (by decide), List.cons_append,
        dropWhile_id_of_head isWS du _ (digit_not_ws du (hud du (by simp)))]
    have e4 : ((du :: u') ++ X).takeWhile isDigitC = du :: u' := by
      rw [takeWhile_app isDigitC _ _ hud,
        takeWhile_nil_of_head isDigitC '호' _ (by decide), List.append_nil]
    have e5 : ((du :: u') ++ X).dropWhile isDigitC = X := by
      rw [dropWhile_app isDigitC _ _ hud,
        dropWhile_id_of_head isDigitC '호' _ (by decide)]
    have e6 : matchTail3 (' ' :: (cat ++ ' ' :: (nm ++ mp4Lit))) = some (cat, nm) :=
      matchTail3_spec cat nm hcat hcws hcdot hnm hnws
    unfold parseGridName
    simp only [e1, e2, e3, e4, e5, hX, e6, hb, hu, if_neg, if_false,
      reduceCtorEq, ite_false]
    simp [e6]
  · decide

/-- Witness for C7 at the annotated filename, assembled from components. -/
theorem parse_grid_filename_witness :
    parseGridName (mkGridFilename "102".toList "1903".toList "세대매립관".toList
        "세탁(재검사)".toList)
      = some (digitsToNat "102".toList, "1903".toList, "세대매립관".toList,
          stripParen "세탁(재검사)".toList) :=
  parse_grid_filename.1 "102".toList "1903".toList "세대매립관".toList
    "세탁(재검사)".toList (by decide) (by decide) (by decide) (by decide)
    (by decide) (by decide) (by decide) (by decide) (by decide) (by decide)

/-! ### C8: legend position numbers -/

theorem digitsToNat_append1 (a : List Char) (c : Char) :
    digitsToNat (a ++ [c]) = 10 * digitsToNat a + (c.toNat - '0'.toNat) := by
  unfold digitsToNat
  rw [List.foldl_append]
  rfl

theorem natReprAux_spec : ∀ fuel n, n < fuel → digitsToNat (natReprAux fuel n) = n := by
  intro fuel
  induction fuel with
  | zero => intro n h; omega
  | succ f ih =>
    intro n h
    rw [natReprAux]
    by_cases h10 : n < 10
    · rw [if_pos h10]
      interval_cases n <;> decide
    · rw [if_neg h10, digitsToNat_append1, ih (n / 10) (by omega)]
      have h9 : n % 10 < 10 := Nat.mod_lt _ (by omega)
      have hd : (digitChar (n % 10)).toNat - '0'.toNat = n % 10 := by
        interval_cases h : n % 10 <;> decide
      rw [hd]
      omega

theorem digitsToNat_natRepr (n : Nat) : digitsToNat (natRepr n) = n :=
  natReprAux_spec (n + 1) n (by omega)

theorem natRepr_injective : Function.Injective natRepr := by
  intro a b h
  have := congrArg digitsToNat h
  rwa [digitsToNat_natRepr, digitsToNat_natRepr] at this

theorem dictInsert_of_fresh (k v : List Char) (d : List (List Char × List Char))
    (h : ∀ p ∈ d, p.1 ≠ k) : dictInsert k v d = d ++ [(k, v)] := by
  unfold dictInsert
  rw [if_neg]
  simp only [List.any_eq_true, decide_eq_true_eq, not_exists]
  rintro x ⟨hx, hk⟩
  exact h x hx hk

theorem legendGo_spec (cells : List (Option (List Char))) :
    ∀ (number : Nat) (acc : List (List Char × List Char)),
      (∀ v ∈ cells.filterMap id, ∀ p ∈ acc, p.1 ≠ v) →
      (cells.filterMap id).Nodup →
      legendGo number acc cells =
        acc ++ (cells.filterMap id).zip
          ((List.range' number (cells.filterMap id).length).map natRepr) := by
  induction cells with
  | nil => intro number acc _ _; simp [legendGo]
  | cons o t ih =>
    intro number acc hfresh hnd
    cases o with
    | none =>
      rw [legendGo]
      simpa using ih number acc (by simpa using hfresh) (by simpa using hnd)
    | some v =>
      have hfm : (List.filterMap id (some v :: t)) = v :: t.filterMap id := by simp
      have hvmem : v ∈ List.filterMap id (some v :: t) := by simp
      rw [legendGo, dictInsert_of_fresh v (natRepr number) acc
        (fun p hp => hfresh v hvmem p hp)]
      rw [ih (number + 1) (acc ++ [(v, natRepr number)]) ?fresh ?nodup]
      · rw [hfm]
        simp only [List.length_cons, List.range'_succ, List.map_cons,
          List.zip_cons_cons, List.append_assoc, List.singleton_append]
      case fresh =>
        intro w hw p hp
        rcases List.mem_append.1 hp with hp' | hp'
        · exact hfresh w (by simp [hw]) p hp'
        · have : p = (v, natRepr number) := by simpa using hp'
          subst this
          have hndv : v ∉ t.filterMap id := by
            rw [hfm] at hnd
            exact (List.nodup_cons.1 hnd).1
          intro hq
          have hvw : v = w := hq
          exact hndv (by rw [hvw]; exact hw)
      case nodup =>
        rw [hfm] at hnd
        exact (List.nodup_cons.1 hnd).2

/-- The input row pairing duplicate pipe names. -/
def dupCells : List (Option (List Char)) := [some "a".toList, some "a".toList]

/-- **C8, counterexample.**  The legend is a dict keyed by the cell value,
so a duplicated pipe name in the span overwrites its earlier position: for
the row `a, a` the built legend is `{a ↦ "2"}` — position `1` is lost and
the positions are not contiguous starting at 1. -/
theorem legend_positions_counterexample :
    buildLegend dupCells = [("a".toList, "2".toList)]
    ∧ "1".toList ∉ (buildLegend dupCells).map Prod.snd := by
  exact ⟨by decide, by decide⟩

/-- **C8, amended.**  Provided the non-empty pipe-name cells of the span
are pairwise distinct, the legend pairs them, in left-to-right encounter
order, with exactly the decimal strings of `1, 2, …, k` (`k` the number of
non-empty cells): positions are unique and contiguous starting at 1. -/
theorem legend_positions_amended (cells : List (Option (List Char)))
    (hnd : (cells.filterMap id).Nodup) :
    buildLegend cells =
      (cells.filterMap id).zip
        ((List.range' 1 (cells.filterMap id).length).map natRepr)
    ∧ (buildLegend cells).map Prod.snd =
        (List.range' 1 (cells.filterMap id).length).map natRepr
    ∧ ((buildLegend cells).map Prod.snd).Nodup := by
  have hmain := legendGo_spec cells 1 [] (by simp) hnd
  have hlen : ((List.range' 1 (cells.filterMap id).length).map natRepr).length
      = (cells.filterMap id).length := by simp
  refine ⟨by simpa [buildLegend] using hmain, ?_, ?_⟩
  · rw [show buildLegend cells = legendGo 1 [] cells from rfl, hmain]
    simp only [List.nil_append]
    exact List.map_snd_zip _ _ (by omega)
  · rw [show buildLegend cells = legendGo 1 [] cells from rfl, hmain]
    simp only [List.nil_append]
    have : (List.map Prod.snd ((cells.filterMap id).zip
        ((List.range' 1 (cells.filterMap id).length).map natRepr))) =
        (List.range' 1 (cells.filterMap id).length).map natRepr :=
      List.map_snd_zip _ _ (by omega)
    rw [this]
    exact (List.nodup_range' _ _).map natRepr_injective

/-- Witness for C8 (amended) at a concrete two-name span. -/
theorem legend_positions_amended_witness :
    buildLegend [some "급수".toList, none, some "급탕".toList] =
      (List.filterMap id [some "급수".toList, none, some "급탕".toList]).zip
        ((List.range' 1 (List.filterMap id
          [some "급수".toList, none, some "급탕".toList]).length).map natRepr) :=
  (legend_positions_amended [some "급수".toList, none, some "급탕".toList]
    (by decide)).1

/-! ### C9: rooftop and basement rows in the defect-location resolver -/

theorem scanStep_le (sheet : LocSheet) (acc rc : Nat × Nat) :
    acc.1 ≤ (scanStep sheet acc rc).1 := by
  cases h : floorLabelAt sheet rc.1 rc.2 with
  | none => simp [scanStep, h]
  | some n =>
    simp only [scanStep, h]
    split
    · rename_i hgt; omega
    · exact Nat.le_refl _

theorem scanStep_dominates (sheet : LocSheet) (acc rc : Nat × Nat) (n : Nat)
    (h : floorLabelAt sheet rc.1 rc.2 = some n) :
    n ≤ (scanStep sheet acc rc).1 := by
  simp only [scanStep, h]
  split
  · exact Nat.le_refl _
  · rename_i hle; omega

theorem scanStep_cases (sheet : LocSheet) (acc rc : Nat × Nat) :
    scanStep sheet acc rc = acc ∨
      (floorLabelAt sheet rc.1 rc.2 = some (scanStep sheet acc rc).1
        ∧ (scanStep sheet acc rc).2 = rc.1) := by
  cases h : floorLabelAt sheet rc.1 rc.2 with
  | none => left; simp [scanStep, h]
  | some n =>
    simp only [scanStep, h]
    split
    · right; exact ⟨rfl, rfl⟩
    · left; rfl

theorem scanFold_spec (sheet : LocSheet) (cells : List (Nat × Nat)) :
    ∀ init : Nat × Nat,
      (∀ rc ∈ cells, ∀ n, floorLabelAt sheet rc.1 rc.2 = some n →
        n ≤ (cells.foldl (scanStep sheet) init).1)
      ∧ init.1 ≤ (cells.foldl (scanStep sheet) init).1
      ∧ ((cells.foldl (scanStep sheet) init) = init
        ∨ ∃ rc ∈ cells, floorLabelAt sheet rc.1 rc.2 =
            some (cells.foldl (scanStep sheet) init).1
          ∧ (cells.foldl (scanStep sheet) init).2 = rc.1) := by
  induction cells with
  | nil => exact fun init => ⟨by simp, Nat.le_refl _, Or.inl rfl⟩
  | cons rc t ih =>
    intro init
    rw [List.foldl_cons]
    obtain ⟨ih1, ih2, ih3⟩ := ih (scanStep sheet init rc)
    refine ⟨?_, Nat.le_trans (scanStep_le sheet init rc) ih2, ?_⟩
    · intro rc' hrc' n hlab
      rcases List.mem_cons.1 hrc' with rfl | hmem
      · exact Nat.le_trans (scanStep_dominates sheet init rc' n hlab) ih2
      · exact ih1 rc' hmem n hlab
    · rcases ih3 with heq | ⟨rc', hmem, hlab, hrow⟩
      · rw [heq]
        rcases scanStep_cases sheet init rc with hid | ⟨hlab, hrow⟩
        · rw [hid]
          exact Or.inl rfl
        · exact Or.inr ⟨rc, by simp, hlab, hrow⟩
      · exact Or.inr ⟨rc', by simp [hmem], hlab, hrow⟩

/-- **C9.**  On a riser ("입상관") defect sheet, a location string with no
digit resolves so that the marked row is `specialFloorRow`: when the string
contains the rooftop keyword `옥상` this is the row immediately above the
row carrying the highest floor label found in the scanned region (columns
A–B of rows 6 to `first_floor_row + 19`; the scan result dominates every
label found there, and whenever it exceeds the default 1 it is an actual
label occurrence at the returned row); otherwise the location is treated as
basement and the row is the one immediately below the `1층` row. -/
theorem defect_special_rows (sheet : LocSheet) (ho : List Char)
    (hr : containsSub "입상관".toList sheet.title = true)
    (hnod : ho.filter isDigitC = []) (ffr : Nat)
    (hffr : findFirstFloorRow sheet = some ffr) :
    (∀ dong idxNo dVal addr writes,
        update_location_sheet sheet dong ho idxNo dVal = (some addr, writes) →
        addr.1 = specialFloorRow sheet ho ffr)
    ∧ (containsSub "옥상".toList ho = true →
        specialFloorRow sheet ho ffr = ((scanHighest sheet ffr).2 : Int) - 1
        ∧ (∀ rc ∈ rooftopScanCells ffr, ∀ n,
            floorLabelAt sheet rc.1 rc.2 = some n → n ≤ (scanHighest sheet ffr).1)
        ∧ (1 < (scanHighest sheet ffr).1 →
            ∃ rc ∈ rooftopScanCells ffr,
              floorLabelAt sheet rc.1 rc.2 = some (scanHighest sheet ffr).1
              ∧ (scanHighest sheet ffr).2 = rc.1))
    ∧ (containsSub "옥상".toList ho = false →
        specialFloorRow sheet ho ffr = (ffr : Int) + 1) := by
  obtain ⟨sf1, sf2, sf3⟩ := scanFold_spec sheet (rooftopScanCells ffr) (1, ffr)
  refine ⟨?_, fun hroof => ⟨by rw [specialFloorRow, if_pos hroof], ?_, ?_⟩,
    fun hnoroof => by rw [specialFloorRow, if_neg (by simp only [hnoroof]; exact Bool.false_ne_true)]⟩
  · intro dong idxNo dVal addr writes h
    unfold update_location_sheet at h
    simp only [] at h
    rw [if_neg (fun hx => hx.2 ⟨hr, hnod⟩), hffr] at h
    split at h
    · simp at h
    · simp only [] at h
      split at h
      · simp at h
      · rename_i ds de heqblock
        have hus : (containsSub "입상관".toList sheet.title = true)
            ∧ List.filter isDigitC ho = [] := ⟨hr, hnod⟩
        rw [if_pos hus, if_pos hus] at h
        split at h
        · simp at h
        · rcases hrl : resolveLineCol dVal ds de with ⟨rc, rep⟩
          rw [hrl] at h
          simp only [Prod.mk.injEq, Option.some_inj] at h
          rw [← h.1]
  · exact fun rc hrc n hlab => sf1 rc hrc n hlab
  · intro hgt
    rcases sf3 with heq | hex
    · rw [show scanHighest sheet ffr = (rooftopScanCells ffr).foldl
          (scanStep sheet) (1, ffr) from rfl, heq] at hgt
      exact absurd hgt (by simp)
    · exact hex

/-- The concrete riser defect sheet used by the C9 witness: `1층` sits in
row 9 of column A, `4층` in row 7, building `101동` in header row 8. -/
def locSheetW : LocSheet :=
  { title := "2.이상배관위치_입상관".toList
    maxRow := 12
    maxCol := 8
    cellVal := fun r c =>
      if r = 9 ∧ c = 1 then some "1층".toList
      else if r = 7 ∧ c = 1 then some "4층".toList
      else if r = 8 ∧ c = 2 then some "101동".toList
      else none
    cellFill := fun _ _ => none
    merged := [⟨8, 2, 8, 4⟩] }

/-- Witness for C9: the rooftop location `옥상부근` on `locSheetW` resolves
to the row above the highest floor row. -/
theorem defect_special_rows_witness :
    specialFloorRow locSheetW "옥상부근".toList 9 =
      ((scanHighest locSheetW 9).2 : Int) - 1 :=
  ((defect_special_rows locSheetW "옥상부근".toList (by decide) (by decide) 9
    (by decide)).2.1 (by decide)).1

/-! ### C10: a failed defect-location marking writes nothing -/

/-- **C10.**  Whenever `update_location_sheet` fails (returns no cell
address), it has performed no cell write: every mutation happens only on
the success path that returns an address. -/
theorem update_none_no_writes (sheet : LocSheet) (dong ho idxNo : List Char)
    (dVal : Option (List Char)) :
    (update_location_sheet sheet dong ho idxNo dVal).1 = none →
    (update_location_sheet sheet dong ho idxNo dVal).2 = [] := by
  unfold update_location_sheet
  simp only []
  repeat' split
  all_goals simp

/-- Witness for C10: a record whose building name carries no digits fails
and leaves the sheet untouched. -/
theorem update_none_no_writes_witness :
    (update_location_sheet locSheetW "동".toList "205호".toList "7".toList none).1 = none
    ∧ (update_location_sheet locSheetW "동".toList "205호".toList "7".toList none).2 = [] :=
  ⟨by decide, update_none_no_writes locSheetW "동".toList "205호".toList "7".toList none
    (by decide)⟩

end FileRenamerX
